import Mathlib

/-!
Verification of the course-scheduling optimizer of this repository.

The development shallowly embeds the two model-building implementations of the
source (the service builder in services/optimizer.py and the backend builder in
backend/optimizerSCIP.py), the catalog ingestion's category mapping
(services/data_loader.py), the result decoders, and the backend entry point
(backend/main.py).  Decision variables of the mixed-integer model are
represented by a small syntax of atoms and linear expressions; a builder
produces the list of constraints its source counterpart adds to the solver, and
a solver outcome is any integer assignment to the variables that satisfies the
variable bounds and every constraint of that list.
-/

/-! ### String helpers mirroring the Python string operations used by the source -/

/-- Python's lower() restricted to the Latin-1 letters that occur in the data:
ASCII A-Z and the accented uppercase range 0xC0-0xDE (excluding the times sign
0xD7) are shifted to their lowercase counterparts. -/
def pyLowerChar (c : Char) : Char :=
  let n := c.toNat
  if 65 ≤ n ∧ n ≤ 90 then Char.ofNat (n + 32)
  else if 192 ≤ n ∧ n ≤ 222 ∧ n ≠ 215 then Char.ofNat (n + 32)
  else c

/-- Python's s.lower() on a whole string. -/
def pyLower (s : String) : String := String.mk (s.data.map pyLowerChar)

/-- Contiguous-sublist test on character lists. -/
def listInfixOf (pat : List Char) : List Char → Bool
  | [] => pat.isPrefixOf []
  | c :: rest => pat.isPrefixOf (c :: rest) || listInfixOf pat rest

/-- Python's substring containment test, pat in s. -/
def strContains (s pat : String) : Bool := listInfixOf pat.data s.data

/-- Python's s.startswith(pat). -/
def strStarts (s pat : String) : Bool := pat.data.isPrefixOf s.data

/-! ### Data model

A course record as stored in the dados dictionaries of the source: name,
credits, the free-text category label (tipo) and the prerequisite id list. -/

structure DiscInfo where
  nome : String
  creditos : Int
  tipo : String
  prerequisitos : List String
deriving DecidableEq

/-- The DadosDisciplinas structure of models/grade.py: the processed catalog
handed to both optimizers.  Python dicts become association lists (insertion
order preserved, keys unique in every instance produced by the loader). -/
structure DadosDisciplinas where
  disciplinas : List (String × DiscInfo)
  turmas_por_disciplina : List (String × List String)
  horarios_por_turma : List (String × List String)
  periodos_validos_por_disciplina : List (String × List Nat)
  obrigatorias_ids : List String
  restritas_ids : List String
  condicionadas_ids : List String
  livres_ids : List String
deriving DecidableEq

/-- The optativas_ids property of DadosDisciplinas. -/
def DadosDisciplinas.optativas_ids (d : DadosDisciplinas) : List String :=
  d.restritas_ids ++ d.condicionadas_ids ++ d.livres_ids

/-! ### Category ingestion (services/data_loader.py, _categorizar_disciplinas) -/

/-- The four id lists built by _categorizar_disciplinas. -/
structure Categorias where
  obrigatorias : List String
  restritas : List String
  condicionadas : List String
  livres : List String
deriving DecidableEq

/-- One loop iteration of _categorizar_disciplinas: a record is a pair of the
course id and the raw tipo label; the lowered label is matched by the
if/elif substring chain and the id appended to the matching list. -/
def categorizarStep (cat : Categorias) (rec : String × String) : Categorias :=
  let tipo := pyLower rec.2
  if strContains tipo "período" || strContains tipo "periodo" then
    { cat with obrigatorias := cat.obrigatorias ++ [rec.1] }
  else if strContains tipo "restrita" then
    { cat with restritas := cat.restritas ++ [rec.1] }
  else if strContains tipo "condicionada" then
    { cat with condicionadas := cat.condicionadas ++ [rec.1] }
  else if strContains tipo "livre" || strStarts rec.1 "ARTIFICIAL" then
    { cat with livres := cat.livres ++ [rec.1] }
  else cat

/-- The whole _categorizar_disciplinas loop over the record list. -/
def categorizarDisciplinas (ds : List (String × String)) : Categorias :=
  ds.foldl categorizarStep ⟨[], [], [], []⟩

/-- The canonical category enum of the specification. -/
inductive CategoriaCanonica where
  | required
  | restrictedElective
  | conditionedElective
  | freeElective
  | other
deriving DecidableEq

/-- Modelled from the spec's words for the refinement comparison of claim C8:
the label is mapped by substring rules with this priority - a term-number
marker maps to Required; else the restricted marker to RestrictedElective;
else the conditioned marker to ConditionedElective; else the free marker, or
an id starting with the artificial-id prefix, to FreeElective; anything else
to Other. -/
def claimCategoria (rec : String × String) : CategoriaCanonica :=
  let tipo := pyLower rec.2
  if strContains tipo "período" || strContains tipo "periodo" then
    CategoriaCanonica.required
  else if strContains tipo "restrita" then
    CategoriaCanonica.restrictedElective
  else if strContains tipo "condicionada" then
    CategoriaCanonica.conditionedElective
  else if strContains tipo "livre" || strStarts rec.1 "ARTIFICIAL" then
    CategoriaCanonica.freeElective
  else CategoriaCanonica.other

/-! ### Linear model syntax

Variables of the mixed-integer model.  aloc d s t is the boolean variable
alocacao[(d, s, t)], sem d the integer variable semestre_da_disciplina[d],
semMax the objective variable semestre_maximo. -/

inductive Atom where
  | aloc : String → Nat → String → Atom
  | sem : String → Atom
  | semMax : Atom
deriving DecidableEq

/-- Linear expressions as built by the source with Sum, +, - and scalar
multiplication.  mul is scalar times expression. -/
inductive LinExpr where
  | const : Int → LinExpr
  | var : Atom → LinExpr
  | add : LinExpr → LinExpr → LinExpr
  | sub : LinExpr → LinExpr → LinExpr
  | mul : Int → LinExpr → LinExpr
deriving DecidableEq

/-- solver.Sum of a list of expressions. -/
def sumE (es : List LinExpr) : LinExpr := es.foldr LinExpr.add (LinExpr.const 0)

/-- A solver outcome: integer values for every variable (all variables of both
models are boolean or integer, so solution values are integral). -/
structure Sol where
  aloc : String → Nat → String → Int
  sem : String → Int
  semMax : Int

def Atom.eval (σ : Sol) : Atom → Int
  | Atom.aloc d s t => σ.aloc d s t
  | Atom.sem d => σ.sem d
  | Atom.semMax => σ.semMax

def LinExpr.eval (σ : Sol) : LinExpr → Int
  | LinExpr.const c => c
  | LinExpr.var a => a.eval σ
  | LinExpr.add a b => a.eval σ + b.eval σ
  | LinExpr.sub a b => a.eval σ - b.eval σ
  | LinExpr.mul c e => c * e.eval σ

/-- Constraints added with solver.Add.  geHalf l t r stands for the one
constraint of the source whose right-hand side divides by two,
l >= t / 2 - r with real division (R7 of optimizerSCIP.py, where
metade_total = total_disciplinas / 2.0); its satisfaction is stated
multiplied by two so that the whole development stays in the integers:
for integer-valued l and r, l >= t / 2 - r holds over the reals exactly
when 2 * l >= t - 2 * r. -/
inductive Constr where
  | le : LinExpr → LinExpr → Constr
  | ge : LinExpr → LinExpr → Constr
  | eqC : LinExpr → LinExpr → Constr
  | geHalf : LinExpr → Int → LinExpr → Constr
deriving DecidableEq

def Constr.holds (σ : Sol) : Constr → Prop
  | Constr.le a b => a.eval σ ≤ b.eval σ
  | Constr.ge a b => b.eval σ ≤ a.eval σ
  | Constr.eqC a b => a.eval σ = b.eval σ
  | Constr.geHalf a t b => t - 2 * b.eval σ ≤ 2 * a.eval σ

instance (σ : Sol) : (c : Constr) → Decidable (c.holds σ)
  | Constr.le a b => inferInstanceAs (Decidable (a.eval σ ≤ b.eval σ))
  | Constr.ge a b => inferInstanceAs (Decidable (b.eval σ ≤ a.eval σ))
  | Constr.eqC a b => inferInstanceAs (Decidable (a.eval σ = b.eval σ))
  | Constr.geHalf a t b => inferInstanceAs (Decidable (t - 2 * b.eval σ ≤ 2 * a.eval σ))

/-- Value of the sum of the alocacao variables of a key list: the value a
solver.Sum over those variables takes under σ. -/
def alocSum (σ : Sol) (ks : List (String × Nat × String)) : Int :=
  (ks.map fun k => σ.aloc k.1 k.2.1 k.2.2).sum

/-- The variable expression of an alocacao key. -/
def varOf (k : String × Nat × String) : LinExpr :=
  LinExpr.var (Atom.aloc k.1 k.2.1 k.2.2)

/-! ### The service model builder (services/optimizer.py, OptimizerService)

The OptimizerConfig dataclass.  creditos_minimos is the dict with the three
elective categories; solver fields (timeout) are irrelevant to the model. -/

namespace Svc

structure Config where
  dados : DadosDisciplinas
  todas_disciplinas_info : List (String × DiscInfo)
  creditos_minimos_restrita : Int
  creditos_minimos_condicionada : Int
  creditos_minimos_livre : Int
  creditos_maximos_por_semestre : Int
  disciplinas_concluidas_ids : List String
  semestre_inicio : Nat
  total_creditos_curso : Int
  num_semestres_total : Nat
deriving DecidableEq

/-- _preparar_disciplinas_a_cursar: obrigatorias not yet completed. -/
def obrigatoriasACursar (cfg : Config) : List String :=
  cfg.dados.obrigatorias_ids.filter fun d => d ∉ cfg.disciplinas_concluidas_ids

/-- _preparar_disciplinas_a_cursar: optativas not yet completed. -/
def optativasACursar (cfg : Config) : List String :=
  cfg.dados.optativas_ids.filter fun d => d ∉ cfg.disciplinas_concluidas_ids

/-- The todas list of _preparar_disciplinas_a_cursar. -/
def todas (cfg : Config) : List String :=
  obrigatoriasACursar cfg ++ optativasACursar cfg

/-- The cursada_vars dict of _criar_variaveis_decisao is keyed exactly by the
todas list. -/
def cursadaDomain (cfg : Config) : List String := todas cfg

/-- range(semestre_inicio, num_semestres_total + 1). -/
def semestres (cfg : Config) : List Nat :=
  List.range' cfg.semestre_inicio (cfg.num_semestres_total + 1 - cfg.semestre_inicio)

/-- turmas_por_disciplina.get(d, []). -/
def turmasOf (cfg : Config) (d : String) : List String :=
  (cfg.dados.turmas_por_disciplina.lookup d).getD []

/-- horarios_por_turma.get(t, []). -/
def horariosOf (cfg : Config) (t : String) : List String :=
  (cfg.dados.horarios_por_turma.lookup t).getD []

/-- The keys of the alocacao dict built by _criar_variaveis_decisao: for every
course still to take, every of its turmas, and every semester of the planning
range, one boolean variable - no parity filtering of any kind. -/
def alocKeys (cfg : Config) : List (String × Nat × String) :=
  (todas cfg).flatMap fun d =>
    (turmasOf cfg d).flatMap fun t =>
      (semestres cfg).map fun s => (d, s, t)

/-- The vars_disciplina selection, all alocacao keys of one course. -/
def keysFor (cfg : Config) (d : String) : List (String × Nat × String) :=
  (alocKeys cfg).filter fun k => k.1 = d

/-- The keys of one course in one semester (used by R6 and the decoder). -/
def keysAt (cfg : Config) (d : String) (s : Nat) : List (String × Nat × String) :=
  (alocKeys cfg).filter fun k => k.1 = d ∧ k.2.1 = s

/-- The cursada expression of a course: the solver.Sum of its alocacao
variables.  For a course with no variables the source stores the auxiliary
IntVar(0, 0), which is identically zero; it is modelled by the constant 0. -/
def cursadaExpr (cfg : Config) (d : String) : LinExpr :=
  if (keysFor cfg d).isEmpty then LinExpr.const 0
  else sumE ((keysFor cfg d).map varOf)

/-- dummy_value of _criar_variaveis_decisao. -/
def dummyValue (cfg : Config) : Int := (cfg.num_semestres_total : Int) + 2

/-- The linking constraint of _criar_variaveis_decisao for a course with at
least one alocacao variable: semestre_da_disciplina[d] ==
Sum(s * alocacao) + (1 - cursada) * dummy_value. -/
def linkConstr (cfg : Config) (d : String) : Constr :=
  Constr.eqC (LinExpr.var (Atom.sem d))
    (LinExpr.add
      (sumE ((keysFor cfg d).map fun k => LinExpr.mul (k.2.1 : Int) (varOf k)))
      (LinExpr.mul (dummyValue cfg)
        (LinExpr.sub (LinExpr.const 1) (cursadaExpr cfg d))))

/-- The per-course constraint emitted by _criar_variaveis_decisao: courses
without variables get semestre == dummy_value, the others the linking
constraint. -/
def linkConstrs (cfg : Config) : List Constr :=
  (todas cfg).map fun d =>
    if (keysFor cfg d).isEmpty then
      Constr.eqC (LinExpr.var (Atom.sem d)) (LinExpr.const (dummyValue cfg))
    else linkConstr cfg d

/-- R1 per required course (_adicionar_restricao_obrigatorias): a course with
no alocacao variables is logged and skipped, otherwise Sum == 1. -/
def obrigConstr (cfg : Config) (d : String) : Option Constr :=
  if (keysFor cfg d).isEmpty then none
  else some (Constr.eqC (sumE ((keysFor cfg d).map varOf)) (LinExpr.const 1))

def obrigConstrs (cfg : Config) : List Constr :=
  (obrigatoriasACursar cfg).filterMap (obrigConstr cfg)

/-- R2 (_adicionar_restricao_optativas): Sum <= 1 when variables exist. -/
def optatConstrs (cfg : Config) : List Constr :=
  (optativasACursar cfg).filterMap fun d =>
    if (keysFor cfg d).isEmpty then none
    else some (Constr.le (sumE ((keysFor cfg d).map varOf)) (LinExpr.const 1))

/-- Credits already earned per elective category
(_calcular_creditos_minimos_restantes), folded over the completed-course id
list with the tipo substring chain of the source. -/
structure Feitos where
  restrita : Int
  condicionada : Int
  livre : Int
deriving DecidableEq

def creditosFeitos (cfg : Config) : Feitos :=
  cfg.disciplinas_concluidas_ids.foldl
    (fun acc d =>
      match cfg.todas_disciplinas_info.lookup d with
      | none => acc
      | some info =>
        let cred := info.creditos
        let tipo := pyLower info.tipo
        if strContains tipo "restrita" then
          { acc with restrita := acc.restrita + cred }
        else if strContains tipo "condicionada" then
          { acc with condicionada := acc.condicionada + cred }
        else if strContains tipo "livre" || strStarts d "ARTIFICIAL" then
          { acc with livre := acc.livre + cred }
        else acc)
    ⟨0, 0, 0⟩

/-- creditos_minimos_restantes, clamped at zero. -/
def credMinRestantes (cfg : Config) : Feitos :=
  ⟨max 0 (cfg.creditos_minimos_restrita - (creditosFeitos cfg).restrita),
   max 0 (cfg.creditos_minimos_condicionada - (creditosFeitos cfg).condicionada),
   max 0 (cfg.creditos_minimos_livre - (creditosFeitos cfg).livre)⟩

/-- R3 for one category (_adicionar_restricao_creditos_minimos): terms
creditos * cursada for ids present both in dados.disciplinas and in
cursada_vars; the constraint is added only when the id list and the term
list are non-empty. -/
def minCredConstrsFor (cfg : Config) (ids : List String) (rhs : Int) : List Constr :=
  if ids.isEmpty then []
  else
    let termos := ids.filterMap fun d =>
      match cfg.dados.disciplinas.lookup d with
      | some info =>
        if d ∈ cursadaDomain cfg then
          some (LinExpr.mul info.creditos (cursadaExpr cfg d))
        else none
      | none => none
    if termos.isEmpty then []
    else [Constr.ge (sumE termos) (LinExpr.const rhs)]

def minCredConstrs (cfg : Config) : List Constr :=
  minCredConstrsFor cfg cfg.dados.restritas_ids (credMinRestantes cfg).restrita
  ++ minCredConstrsFor cfg cfg.dados.condicionadas_ids (credMinRestantes cfg).condicionada
  ++ minCredConstrsFor cfg cfg.dados.livres_ids (credMinRestantes cfg).livre

/-- m_prereq of _adicionar_restricao_prerequisitos. -/
def mPrereq (cfg : Config) : Int := (cfg.num_semestres_total : Int) + 2

/-- R4 (_adicionar_restricao_prerequisitos): for every course of todas found
in dados.disciplinas and every of its prerequisites, completed prerequisites
are skipped; otherwise, when the prerequisite is in todas and both ids are
keys of cursada_vars, the pair cursada[pre] >= cursada[d] and
sem[d] - sem[pre] >= 1 - m_prereq * (1 - cursada[d]) is added. -/
def prereqConstrs (cfg : Config) : List Constr :=
  (todas cfg).flatMap fun d =>
    match cfg.dados.disciplinas.lookup d with
    | none => []
    | some info =>
      info.prerequisitos.flatMap fun pre =>
        if pre ∈ cfg.disciplinas_concluidas_ids then []
        else if pre ∈ todas cfg ∧ pre ∈ cursadaDomain cfg ∧ d ∈ cursadaDomain cfg then
          [Constr.ge (cursadaExpr cfg pre) (cursadaExpr cfg d),
           Constr.ge
             (LinExpr.sub (LinExpr.var (Atom.sem d)) (LinExpr.var (Atom.sem pre)))
             (LinExpr.sub (LinExpr.const 1)
               (LinExpr.mul (mPrereq cfg)
                 (LinExpr.sub (LinExpr.const 1) (cursadaExpr cfg d))))]
        else []

/-- The alocacao keys of one semester, in creation order. -/
def keysAtSem (cfg : Config) (s : Nat) : List (String × Nat × String) :=
  (alocKeys cfg).filter fun k => k.2.1 = s

/-- The distinct time slots occurring in semester s. -/
def slotsAt (cfg : Config) (s : Nat) : List String :=
  ((keysAtSem cfg s).flatMap fun k => horariosOf cfg k.2.2).dedup

/-- R5 (_adicionar_restricao_conflitos_horario): per semester and per time
slot, the variables of the turmas occupying the slot; a constraint Sum <= 1
is added only for groups with more than one variable. -/
def conflictConstrs (cfg : Config) : List Constr :=
  (semestres cfg).flatMap fun s =>
    (slotsAt cfg s).filterMap fun h =>
      let grp := (keysAtSem cfg s).filter fun k => h ∈ horariosOf cfg k.2.2
      if grp.length > 1 then some (Constr.le (sumE (grp.map varOf)) (LinExpr.const 1))
      else none

/-- R6 terms (_adicionar_restricao_limite_creditos): per catalog course with
variables in semester s, creditos * Sum of those variables. -/
def credCapTerms (cfg : Config) (s : Nat) : List LinExpr :=
  cfg.dados.disciplinas.filterMap fun p =>
    let vs := keysAt cfg p.1 s
    if vs.isEmpty then none
    else some (LinExpr.mul p.2.creditos (sumE (vs.map varOf)))

/-- R6: one constraint per semester; with no terms the source constrains the
auxiliary IntVar(0, 0), modelled by the constant 0. -/
def credCapConstrs (cfg : Config) : List Constr :=
  (semestres cfg).map fun s =>
    let termos := credCapTerms cfg s
    Constr.le (if termos.isEmpty then LinExpr.const 0 else sumE termos)
      (LinExpr.const cfg.creditos_maximos_por_semestre)

/-- m_obj of _definir_funcao_objetivo. -/
def mObj (cfg : Config) : Int := (cfg.num_semestres_total : Int) + 2

/-- Objective linking (_definir_funcao_objetivo):
semestre_maximo >= sem[d] - m_obj * (1 - cursada[d]) for every course of
cursada_vars. -/
def objConstrs (cfg : Config) : List Constr :=
  (cursadaDomain cfg).map fun d =>
    Constr.ge (LinExpr.var Atom.semMax)
      (LinExpr.sub (LinExpr.var (Atom.sem d))
        (LinExpr.mul (mObj cfg)
          (LinExpr.sub (LinExpr.const 1) (cursadaExpr cfg d))))

/-- All constraints the service builder adds to the solver. -/
def buildConstraints (cfg : Config) : List Constr :=
  linkConstrs cfg ++ obrigConstrs cfg ++ optatConstrs cfg ++ minCredConstrs cfg
  ++ prereqConstrs cfg ++ conflictConstrs cfg ++ credCapConstrs cfg ++ objConstrs cfg

/-- Variable domains: alocacao variables are BoolVar, semestre_da_disciplina
is IntVar(semestre_inicio, num_semestres_total + 1), semestre_maximo is
IntVar(semestre_inicio, num_semestres_total). -/
def Bounds (cfg : Config) (σ : Sol) : Prop :=
  (∀ k ∈ alocKeys cfg, 0 ≤ σ.aloc k.1 k.2.1 k.2.2 ∧ σ.aloc k.1 k.2.1 k.2.2 ≤ 1)
  ∧ (∀ d ∈ todas cfg,
      (cfg.semestre_inicio : Int) ≤ σ.sem d ∧ σ.sem d ≤ (cfg.num_semestres_total : Int) + 1)
  ∧ (cfg.semestre_inicio : Int) ≤ σ.semMax
  ∧ σ.semMax ≤ (cfg.num_semestres_total : Int)

instance (cfg : Config) (σ : Sol) : Decidable (Bounds cfg σ) :=
  inferInstanceAs (Decidable (_ ∧ _))

/-- A value assignment is a solver outcome of the service model exactly when
it respects the variable domains and every added constraint. -/
def Satisfies (cfg : Config) (σ : Sol) : Prop :=
  Bounds cfg σ ∧ ∀ c ∈ buildConstraints cfg, c.holds σ

instance (cfg : Config) (σ : Sol) : Decidable (Satisfies cfg σ) :=
  inferInstanceAs (Decidable (_ ∧ _))

end Svc

/-! ### Solver status codes of ortools pywraplp. -/

def OPTIMAL : Int := 0
def FEASIBLE : Int := 1
def INFEASIBLE : Int := 2

/-! ### The backend model builder (backend/optimizerSCIP.py, resolver_grade) -/

namespace Scip

/-- The arguments of resolver_grade. -/
structure Config where
  dados : DadosDisciplinas
  creditos_minimos_restrita : Int
  creditos_minimos_condicionada : Int
  creditos_minimos_livre : Int
  numSemestres : Nat
  creditosMaximos : Int
  disciplinas_cursadas : List String
deriving DecidableEq

/-- The iteration order of the disciplinas dict. -/
def discIds (cfg : Config) : List String := cfg.dados.disciplinas.map Prod.fst

def turmasOf (cfg : Config) (d : String) : List String :=
  (cfg.dados.turmas_por_disciplina.lookup d).getD []

def horariosOf (cfg : Config) (t : String) : List String :=
  (cfg.dados.horarios_por_turma.lookup t).getD []

/-- periodos_validos_por_disciplina.get(d_id, set of 1 and 2) together with the
semester-parity test of the variable-creation loop: an odd semester needs
offering period 1, an even one offering period 2. -/
def parityOk (cfg : Config) (d : String) (s : Nat) : Bool :=
  let pv := (cfg.dados.periodos_validos_por_disciplina.lookup d).getD [1, 2]
  ((s % 2 != 0) && pv.contains 1) || ((s % 2 == 0) && pv.contains 2)

/-- The alocacao keys of resolver_grade: courses already taken are skipped
entirely, semesters run over range(1, NUM_SEMESTRES + 1), and a variable is
created only when the semester parity matches the course's offering. -/
def alocKeys (cfg : Config) : List (String × Nat × String) :=
  (discIds cfg).flatMap fun d =>
    if d ∈ cfg.disciplinas_cursadas then []
    else
      (turmasOf cfg d).flatMap fun t =>
        (List.range' 1 cfg.numSemestres).filterMap fun s =>
          if parityOk cfg d s then some (d, s, t) else none

def keysFor (cfg : Config) (d : String) : List (String × Nat × String) :=
  (alocKeys cfg).filter fun k => k.1 = d

def keysAt (cfg : Config) (d : String) (s : Nat) : List (String × Nat × String) :=
  (alocKeys cfg).filter fun k => k.1 = d ∧ k.2.1 = s

/-- cursada_vars of resolver_grade: the constant 1 for already-taken courses,
otherwise the Sum of the course's alocacao variables. -/
def cursadaExpr (cfg : Config) (d : String) : LinExpr :=
  if d ∈ cfg.disciplinas_cursadas then LinExpr.const 1
  else sumE ((keysFor cfg d).map varOf)

/-- semestre_da_disciplina of resolver_grade: the constant 0 for already-taken
courses, otherwise the integer variable. -/
def semExpr (cfg : Config) (d : String) : LinExpr :=
  if d ∈ cfg.disciplinas_cursadas then LinExpr.const 0
  else LinExpr.var (Atom.sem d)

/-- R1.1: obligatory courses not yet taken get Sum == 1; the constraint is
added even when the course has no variables (the sum is then empty). -/
def obrigConstrs (cfg : Config) : List Constr :=
  cfg.dados.obrigatorias_ids.filterMap fun d =>
    if d ∈ cfg.disciplinas_cursadas then none
    else some (Constr.eqC (sumE ((keysFor cfg d).map varOf)) (LinExpr.const 1))

/-- R1.2: electives not yet taken get Sum <= 1. -/
def optatConstrs (cfg : Config) : List Constr :=
  cfg.dados.optativas_ids.filterMap fun d =>
    if d ∈ cfg.disciplinas_cursadas then none
    else some (Constr.le (sumE ((keysFor cfg d).map varOf)) (LinExpr.const 1))

/-- R2, the linearized linking constraint, with dummy constant
NUM_SEMESTRES + 1. -/
def linkConstrs (cfg : Config) : List Constr :=
  (discIds cfg).filterMap fun d =>
    if d ∈ cfg.disciplinas_cursadas then none
    else some (Constr.eqC (LinExpr.var (Atom.sem d))
      (LinExpr.add
        (sumE ((keysFor cfg d).map fun k => LinExpr.mul (k.2.1 : Int) (varOf k)))
        (LinExpr.mul ((cfg.numSemestres : Int) + 1)
          (LinExpr.sub (LinExpr.const 1) (sumE ((keysFor cfg d).map varOf))))))

/-- R3 for one elective category: one constraint summing
creditos * cursada_vars over the whole id list when the list is non-empty.
The direct dict indexing disciplinas[d_id] of the source presupposes the id is
in the catalog (the loader guarantees it); a missing id contributes credit 0
here. -/
def minCredFor (cfg : Config) (ids : List String) (rhs : Int) : List Constr :=
  if ids.isEmpty then []
  else [Constr.ge
    (sumE (ids.map fun d =>
      LinExpr.mul (((cfg.dados.disciplinas.lookup d).map DiscInfo.creditos).getD 0)
        (cursadaExpr cfg d)))
    (LinExpr.const rhs)]

def minCredConstrs (cfg : Config) : List Constr :=
  minCredFor cfg cfg.dados.restritas_ids cfg.creditos_minimos_restrita
  ++ minCredFor cfg cfg.dados.condicionadas_ids cfg.creditos_minimos_condicionada
  ++ minCredFor cfg cfg.dados.livres_ids cfg.creditos_minimos_livre

/-- R4 with M_prereq = NUM_SEMESTRES + 1: prerequisites outside the catalog
are ignored; the taken-implication is skipped when the prerequisite is already
taken (its cursada value is the constant 1); the ordering constraint is always
added, with the constants of already-taken prerequisites substituted. -/
def prereqConstrs (cfg : Config) : List Constr :=
  cfg.dados.disciplinas.flatMap fun p =>
    if p.1 ∈ cfg.disciplinas_cursadas then []
    else
      p.2.prerequisitos.flatMap fun pre =>
        if pre ∈ discIds cfg then
          (if pre ∈ cfg.disciplinas_cursadas then []
           else [Constr.ge (cursadaExpr cfg pre) (cursadaExpr cfg p.1)])
          ++ [Constr.ge
               (LinExpr.sub (semExpr cfg p.1) (semExpr cfg pre))
               (LinExpr.sub (LinExpr.const 1)
                 (LinExpr.mul ((cfg.numSemestres : Int) + 1)
                   (LinExpr.sub (LinExpr.const 1) (cursadaExpr cfg p.1))))]
        else []

def keysAtSem (cfg : Config) (s : Nat) : List (String × Nat × String) :=
  (alocKeys cfg).filter fun k => k.2.1 = s

def slotsAt (cfg : Config) (s : Nat) : List String :=
  ((keysAtSem cfg s).flatMap fun k => horariosOf cfg k.2.2).dedup

/-- R5: one Sum <= 1 constraint per semester and per occurring time slot
(also for singleton groups). -/
def conflictConstrs (cfg : Config) : List Constr :=
  (List.range' 1 cfg.numSemestres).flatMap fun s =>
    (slotsAt cfg s).map fun h =>
      Constr.le
        (sumE (((keysAtSem cfg s).filter fun k => h ∈ horariosOf cfg k.2.2).map varOf))
        (LinExpr.const 1)

/-- R6: per-semester credit cap, only when at least one candidate term
exists. -/
def credCapConstrs (cfg : Config) : List Constr :=
  (List.range' 1 cfg.numSemestres).filterMap fun s =>
    let termos := cfg.dados.disciplinas.filterMap fun p =>
      if p.1 ∈ cfg.disciplinas_cursadas then none
      else
        let vs := keysAt cfg p.1 s
        if vs.isEmpty then none
        else some (LinExpr.mul p.2.creditos (sumE (vs.map varOf)))
    if termos.isEmpty then none
    else some (Constr.le (sumE termos) (LinExpr.const cfg.creditosMaximos))

/-- The designated gating course of R7. -/
def estagioId : String := "EEWU00"

/-- len(cursadas_set). -/
def countCursadas (cfg : Config) : Int := (cfg.disciplinas_cursadas.dedup.length : Int)

/-- The alocacao keys counted by R7 as completed strictly before semester s:
every other not-yet-taken course, semesters 1 to s - 1, keys that exist in
alocacao. -/
def priorKeys (cfg : Config) (s : Nat) : List (String × Nat × String) :=
  (discIds cfg).flatMap fun d =>
    if d ∈ cfg.disciplinas_cursadas then []
    else if d = estagioId then []
    else
      (List.range' 1 (s - 1)).flatMap fun sp =>
        (turmasOf cfg d).filterMap fun t =>
          if (d, sp, t) ∈ alocKeys cfg then some (d, sp, t) else none

/-- R7: when the gating course is in the catalog and not yet taken, for every
semester where it has variables,
count_cursadas + Sum(earlier alocacao) >= total / 2 - M * (1 - Sum(estagio in s))
with M = total + 1 (see geHalf for the half encoding). -/
def gateConstrs (cfg : Config) : List Constr :=
  if estagioId ∈ discIds cfg ∧ estagioId ∉ cfg.disciplinas_cursadas then
    (List.range' 1 cfg.numSemestres).filterMap fun s =>
      let vsEst := (alocKeys cfg).filter fun k => k.1 = estagioId ∧ k.2.1 = s
      if vsEst.isEmpty then none
      else some (Constr.geHalf
        (LinExpr.add (LinExpr.const (countCursadas cfg))
          (sumE ((priorKeys cfg s).map varOf)))
        ((cfg.dados.disciplinas.length : Int))
        (LinExpr.mul ((cfg.dados.disciplinas.length : Int) + 1)
          (LinExpr.sub (LinExpr.const 1) (sumE (vsEst.map varOf)))))
  else []

/-- Objective linking with M_obj = NUM_SEMESTRES + 1. -/
def objConstrs (cfg : Config) : List Constr :=
  (discIds cfg).filterMap fun d =>
    if d ∈ cfg.disciplinas_cursadas then none
    else some (Constr.ge (LinExpr.var Atom.semMax)
      (LinExpr.sub (LinExpr.var (Atom.sem d))
        (LinExpr.mul ((cfg.numSemestres : Int) + 1)
          (LinExpr.sub (LinExpr.const 1) (cursadaExpr cfg d)))))

/-- All constraints resolver_grade adds, in source order R1.1 to R7 plus the
objective linking. -/
def buildConstraints (cfg : Config) : List Constr :=
  obrigConstrs cfg ++ optatConstrs cfg ++ linkConstrs cfg ++ minCredConstrs cfg
  ++ prereqConstrs cfg ++ conflictConstrs cfg ++ credCapConstrs cfg
  ++ gateConstrs cfg ++ objConstrs cfg

/-- Variable domains: BoolVar for alocacao, IntVar(1, NUM_SEMESTRES + 1) for
the semester of every course not yet taken, IntVar(1, NUM_SEMESTRES) for
semestre_maximo. -/
def Bounds (cfg : Config) (σ : Sol) : Prop :=
  (∀ k ∈ alocKeys cfg, 0 ≤ σ.aloc k.1 k.2.1 k.2.2 ∧ σ.aloc k.1 k.2.1 k.2.2 ≤ 1)
  ∧ (∀ d ∈ discIds cfg, d ∉ cfg.disciplinas_cursadas →
      (1 : Int) ≤ σ.sem d ∧ σ.sem d ≤ (cfg.numSemestres : Int) + 1)
  ∧ (1 : Int) ≤ σ.semMax ∧ σ.semMax ≤ (cfg.numSemestres : Int)

instance (cfg : Config) (σ : Sol) : Decidable (Bounds cfg σ) :=
  inferInstanceAs (Decidable (_ ∧ _))

/-- A solver outcome of the backend model. -/
def Satisfies (cfg : Config) (σ : Sol) : Prop :=
  Bounds cfg σ ∧ ∀ c ∈ buildConstraints cfg, c.holds σ

instance (cfg : Config) (σ : Sol) : Decidable (Satisfies cfg σ) :=
  inferInstanceAs (Decidable (_ ∧ _))

end Scip

/-! ### The service result decoder (services/optimizer.py, _processar_resultados) -/

namespace Svc

/-- One scheduled entry as appended to grade[s]. -/
structure AlocEntry where
  nome : String
  turma : String
  horarios : List String
  creditos : Int
deriving DecidableEq

/-- The GradeResultado dataclass of models/grade.py.  The float fields
objetivo_value and tempo_execucao carry integer solver values here. -/
structure GradeResultado where
  grade : List (Nat × List AlocEntry)
  creditos_por_semestre : List (Nat × Int)
  status : Int
  objetivo_value : Option Int
  tempo_execucao : Int
deriving DecidableEq

/-- The entries decoded into semester s: alocacao variables of s with solution
value above one half (integral values, hence at least 1) whose course is found
in the catalog; a selected variable of an unknown course is logged and
skipped. -/
def entriesAt (cfg : Config) (σ : Sol) (s : Nat) : List AlocEntry :=
  (alocKeys cfg).filterMap fun k =>
    if k.2.1 = s ∧ 1 ≤ σ.aloc k.1 k.2.1 k.2.2 then
      match cfg.dados.disciplinas.lookup k.1 with
      | some info => some ⟨info.nome, k.2.2, horariosOf cfg k.2.2, info.creditos⟩
      | none => none
    else none

/-- The credit total accumulated into creditos_por_semestre[s]. -/
def credAt (cfg : Config) (σ : Sol) (s : Nat) : Int :=
  ((alocKeys cfg).filterMap fun k =>
    if k.2.1 = s ∧ 1 ≤ σ.aloc k.1 k.2.1 k.2.2 then
      (cfg.dados.disciplinas.lookup k.1).map DiscInfo.creditos
    else none).sum

/-- _processar_resultados: on OPTIMAL or FEASIBLE the grade map is built over
the whole semester range and then filtered to the non-empty semesters, and
the objective value is attached; otherwise the empty result carrying the
status and no objective value is returned. -/
def processarResultados (cfg : Config) (status : Int) (σ : Sol)
    (objVal : Int) (tempo : Int) : GradeResultado :=
  if status = OPTIMAL ∨ status = FEASIBLE then
    let grade := (semestres cfg).map fun s => (s, entriesAt cfg σ s)
    { grade := grade.filter fun p => !p.2.isEmpty,
      creditos_por_semestre := (semestres cfg).map fun s => (s, credAt cfg σ s),
      status := status,
      objetivo_value := some objVal,
      tempo_execucao := tempo }
  else
    { grade := [], creditos_por_semestre := [], status := status,
      objetivo_value := none, tempo_execucao := tempo }

end Svc

/-! ### The backend result decoding and return value
(backend/optimizerSCIP.py, sections 6 and 7, and backend/main.py) -/

namespace Scip

/-- One structured disciplina_obj of the backend decoder. -/
structure ScipEntry where
  id : String
  nome : String
  turma : String
  horarios : List String
  creditos : Int
  tipo : String
deriving DecidableEq

/-- The per-semester entry list of the backend decoder.  The source indexes
disciplinas[d_id] directly; every alocacao key comes from the catalog, so the
lookup always succeeds there. -/
def decodeEntries (cfg : Config) (σ : Sol) (s : Nat) : List ScipEntry :=
  (alocKeys cfg).filterMap fun k =>
    if k.2.1 = s ∧ 1 ≤ σ.aloc k.1 k.2.1 k.2.2 then
      match cfg.dados.disciplinas.lookup k.1 with
      | some info => some ⟨k.1, info.nome, k.2.2, horariosOf cfg k.2.2,
          info.creditos, info.tipo⟩
      | none => none
    else none

/-- The grade dict returned by the backend: every semester of
range(1, NUM_SEMESTRES + 1) is present, with no filtering of empty
semesters. -/
def decodeGrade (cfg : Config) (σ : Sol) : List (Nat × List ScipEntry) :=
  (List.range' 1 cfg.numSemestres).map fun s => (s, decodeEntries cfg σ s)

/-- creditos_por_semestre of the backend decoder. -/
def decodeCred (cfg : Config) (σ : Sol) : List (Nat × Int) :=
  (List.range' 1 cfg.numSemestres).map fun s =>
    (s, ((alocKeys cfg).filterMap fun k =>
      if k.2.1 = s ∧ 1 ≤ σ.aloc k.1 k.2.1 k.2.2 then
        (cfg.dados.disciplinas.lookup k.1).map DiscInfo.creditos
      else none).sum)

/-- The creditos_por_tipo report keys. -/
structure CreditosPorTipo where
  obrigatoria : Int
  restrita : Int
  condicionada : Int
  livre : Int
  outros : Int
deriving DecidableEq

/-- The tipo-normalization chain of the backend decoder (substring tests on
the raw label). -/
def tipoKeyAdd (acc : CreditosPorTipo) (tipo : String) (cred : Int) : CreditosPorTipo :=
  if strContains tipo "Obrigatória" then { acc with obrigatoria := acc.obrigatoria + cred }
  else if strContains tipo "Restrita" then { acc with restrita := acc.restrita + cred }
  else if strContains tipo "Condicionada" then { acc with condicionada := acc.condicionada + cred }
  else if strContains tipo "Livre" then { acc with livre := acc.livre + cred }
  else { acc with outros := acc.outros + cred }

/-- creditos_por_tipo: credits of the already-taken courses found in the
catalog plus credits of the suggested assignments. -/
def creditosPorTipo (cfg : Config) (σ : Sol) : CreditosPorTipo :=
  let base := cfg.disciplinas_cursadas.dedup.foldl
    (fun acc d =>
      match cfg.dados.disciplinas.lookup d with
      | some info => tipoKeyAdd acc info.tipo info.creditos
      | none => acc)
    ⟨0, 0, 0, 0, 0⟩
  (alocKeys cfg).foldl
    (fun acc k =>
      if 1 ≤ σ.aloc k.1 k.2.1 k.2.2 then
        match cfg.dados.disciplinas.lookup k.1 with
        | some info => tipoKeyAdd acc info.tipo info.creditos
        | none => acc
      else acc)
    base

/-- The heterogeneous Python values returned in resolver_grade's tuple. -/
inductive PyVal where
  | vnone : PyVal
  | vint : Int → PyVal
  | vgrade : List (Nat × List ScipEntry) → PyVal
  | vcred : List (Nat × Int) → PyVal
  | vtipos : CreditosPorTipo → PyVal
deriving DecidableEq

/-- resolver_grade's return value as the tuple of Python values it builds.
solverOk models whether pywraplp.Solver.CreateSolver returned a solver; when
it did, status and σ are the outcome of the solve call, and the objective
value is the solved semestre_maximo.  The solver-missing path returns a
four-element tuple, every other path a five-element one. -/
def resolverGrade (solverOk : Bool) (cfg : Config) (status : Int) (σ : Sol) :
    List PyVal :=
  if !solverOk then [PyVal.vnone, PyVal.vnone, PyVal.vint (-1), PyVal.vnone]
  else if status = OPTIMAL ∨ status = FEASIBLE then
    [PyVal.vgrade (decodeGrade cfg σ), PyVal.vcred (decodeCred cfg σ),
     PyVal.vint status, PyVal.vint σ.semMax, PyVal.vtipos (creditosPorTipo cfg σ)]
  else [PyVal.vnone, PyVal.vnone, PyVal.vint status, PyVal.vnone, PyVal.vnone]

end Scip

namespace MainApi

/-- The tuple unpacking of the /optimize handler of backend/main.py,
grade, creditos, status, obj_value, creditos_por_tipo = resolver_grade(...):
Python unpacking succeeds exactly for a five-element tuple and raises
otherwise, modelled by none. -/
def unpack5 (l : List Scip.PyVal) :
    Option (Scip.PyVal × Scip.PyVal × Scip.PyVal × Scip.PyVal × Scip.PyVal) :=
  match l with
  | [a, b, c, d, e] => some (a, b, c, d, e)
  | _ => none

end MainApi

/-! ### Concrete instances used by the witnesses and counterexamples -/

/-- A small two-course catalog: B requires A, each with one turma and disjoint
time slots. -/
def infoA : DiscInfo := ⟨"Calculo 1", 4, "1º Período", []⟩

def infoB : DiscInfo := ⟨"Calculo 2", 4, "2º Período", ["A"]⟩

def dadosW : DadosDisciplinas :=
  ⟨[("A", infoA), ("B", infoB)],
   [("A", ["TA"]), ("B", ["TB"])],
   [("TA", ["SEG-08-10"]), ("TB", ["TER-08-10"])],
   [],
   ["A", "B"], [], [], []⟩

def cfgW : Svc.Config :=
  ⟨dadosW, [("A", infoA), ("B", infoB)], 0, 0, 0, 10, [], 1, 240, 2⟩

/-- A solver outcome of cfgW: A in semester 1, B in semester 2. -/
def solW : Sol :=
  ⟨fun d s t =>
    if d = "A" ∧ s = 1 ∧ t = "TA" then 1
    else if d = "B" ∧ s = 2 ∧ t = "TB" then 1
    else 0,
   fun d => if d = "A" then 1 else if d = "B" then 2 else 0,
   2⟩

/-- A backend instance around the gating course: the catalog holds the gating
course and one already-taken course X. -/
def infoE : DiscInfo := ⟨"Estagio", 4, "Obrigatória", []⟩

def infoX : DiscInfo := ⟨"Materia X", 4, "Obrigatória", []⟩

def dadosG : DadosDisciplinas :=
  ⟨[("EEWU00", infoE), ("X", infoX)],
   [("EEWU00", ["T1"])],
   [("T1", ["SEG-08-10"])],
   [],
   ["EEWU00", "X"], [], [], []⟩

def cfgG : Scip.Config := ⟨dadosG, 0, 0, 0, 2, 30, ["X"]⟩

/-- A solver outcome of cfgG: the gating course is taken in semester 1. -/
def solG : Sol :=
  ⟨fun d s t => if d = "EEWU00" ∧ s = 1 ∧ t = "T1" then 1 else 0,
   fun d => if d = "EEWU00" then 1 else 0,
   1⟩

/-- A required course with no turma at all. -/
def dadosZ : DadosDisciplinas :=
  ⟨[("A", infoA)], [], [], [], ["A"], [], [], []⟩

def cfgZ : Svc.Config :=
  ⟨dadosZ, [("A", infoA)], 0, 0, 0, 10, [], 1, 240, 2⟩

/-- A course offered only in odd semesters, for the parity counterexample. -/
def dadosP : DadosDisciplinas :=
  ⟨[("A", infoA)], [("A", ["T1"])], [("T1", ["SEG-08-10"])], [("A", [1])],
   ["A"], [], [], []⟩

def cfgP : Svc.Config :=
  ⟨dadosP, [("A", infoA)], 0, 0, 0, 10, [], 1, 240, 2⟩

/-- The record list for the category-mapping witness. -/
def dsC8 : List (String × String) :=
  [("MAT01", "3º Período"), ("FIS02", "Escolha Restrita"),
   ("ELT03", "Escolha Condicionada"), ("LIV04", "Livre Escolha"),
   ("ARTIFICIAL9", "Desconhecida"), ("OUT05", "Desconhecida")]

/-! ### Evaluation and membership lemmas -/

theorem eval_sumE (σ : Sol) (es : List LinExpr) :
    (sumE es).eval σ = (es.map (LinExpr.eval σ)).sum := by
  induction es with
  | nil => rfl
  | cons e es ih =>
    show LinExpr.eval σ e + (sumE es).eval σ = _
    rw [ih, List.map_cons, List.sum_cons]

theorem eval_sumE_vars (σ : Sol) (ks : List (String × Nat × String)) :
    (sumE (ks.map varOf)).eval σ = alocSum σ ks := by
  rw [eval_sumE, List.map_map]; rfl

theorem alocSum_nonneg (σ : Sol) (ks : List (String × Nat × String))
    (h : ∀ k ∈ ks, 0 ≤ σ.aloc k.1 k.2.1 k.2.2) : 0 ≤ alocSum σ ks := by
  apply List.sum_nonneg
  intro x hx
  obtain ⟨k, hk, rfl⟩ := List.mem_map.mp hx
  exact h k hk

theorem alocSum_ge_one (σ : Sol) (ks : List (String × Nat × String))
    (h0 : ∀ k ∈ ks, 0 ≤ σ.aloc k.1 k.2.1 k.2.2)
    (h : ∃ k ∈ ks, σ.aloc k.1 k.2.1 k.2.2 = 1) : 1 ≤ alocSum σ ks := by
  obtain ⟨k, hk, hv⟩ := h
  have hle : σ.aloc k.1 k.2.1 k.2.2 ≤ alocSum σ ks := by
    apply List.single_le_sum
    · intro x hx
      obtain ⟨k', hk', rfl⟩ := List.mem_map.mp hx
      exact h0 k' hk'
    · exact List.mem_map.mpr ⟨k, hk, rfl⟩
  omega

theorem exists_eq_one_of_sum (l : List Int)
    (hb : ∀ x ∈ l, 0 ≤ x ∧ x ≤ 1) (h : 1 ≤ l.sum) : ∃ x ∈ l, x = 1 := by
  induction l with
  | nil => simp at h
  | cons a l ih =>
    by_cases ha : a = 1
    · exact ⟨a, List.mem_cons_self a l, ha⟩
    · have ha2 := hb a (List.mem_cons_self a l)
      rw [List.sum_cons] at h
      have h' : 1 ≤ l.sum := by omega
      obtain ⟨x, hx, hv⟩ := ih (fun x hx => hb x (List.mem_cons_of_mem a hx)) h'
      exact ⟨x, List.mem_cons_of_mem a hx, hv⟩

theorem exists_one_of_alocSum (σ : Sol) (ks : List (String × Nat × String))
    (hb : ∀ k ∈ ks, 0 ≤ σ.aloc k.1 k.2.1 k.2.2 ∧ σ.aloc k.1 k.2.1 k.2.2 ≤ 1)
    (h : 1 ≤ alocSum σ ks) : ∃ k ∈ ks, σ.aloc k.1 k.2.1 k.2.2 = 1 := by
  obtain ⟨x, hx, hv⟩ := exists_eq_one_of_sum _
    (by intro x hx
        obtain ⟨k, hk, rfl⟩ := List.mem_map.mp hx
        exact hb k hk) h
  obtain ⟨k, hk, rfl⟩ := List.mem_map.mp hx
  exact ⟨k, hk, hv⟩

theorem sum_filterMap_eval {α : Type} (σ : Sol) (l : List α)
    (f : α → Option LinExpr) (g : α → Int)
    (hs : ∀ a ∈ l, ∀ e, f a = some e → e.eval σ = g a)
    (h0 : ∀ a ∈ l, f a = none → g a = 0) :
    ((l.filterMap f).map (LinExpr.eval σ)).sum = (l.map g).sum := by
  induction l with
  | nil => rfl
  | cons a l ih =>
    have ih' := ih (fun a ha => hs a (List.mem_cons_of_mem _ ha))
      (fun a ha => h0 a (List.mem_cons_of_mem _ ha))
    cases hfa : f a with
    | none =>
      rw [List.filterMap_cons_none hfa, List.map_cons, List.sum_cons, ih',
        h0 a (List.mem_cons_self a l) hfa]
      omega
    | some e =>
      rw [List.filterMap_cons_some hfa, List.map_cons, List.sum_cons,
        List.map_cons, List.sum_cons, ih', hs a (List.mem_cons_self a l) e hfa]

theorem mem_range_sub {a b s : Nat} : s ∈ List.range' a (b - a) ↔ a ≤ s ∧ s < b := by
  rw [List.mem_range'_1]; omega

theorem svc_eval_cursada (cfg : Svc.Config) (σ : Sol) (d : String) :
    (Svc.cursadaExpr cfg d).eval σ = alocSum σ (Svc.keysFor cfg d) := by
  unfold Svc.cursadaExpr
  split_ifs with h
  · rw [List.isEmpty_iff] at h
    rw [h]; rfl
  · exact eval_sumE_vars σ _

theorem scip_eval_cursada (cfg : Scip.Config) (σ : Sol) (d : String)
    (h : d ∉ cfg.disciplinas_cursadas) :
    (Scip.cursadaExpr cfg d).eval σ = alocSum σ (Scip.keysFor cfg d) := by
  unfold Scip.cursadaExpr
  rw [if_neg h]
  exact eval_sumE_vars σ _

theorem svc_mem_alocKeys (cfg : Svc.Config) (k : String × Nat × String) :
    k ∈ Svc.alocKeys cfg ↔
      k.1 ∈ Svc.todas cfg ∧ k.2.2 ∈ Svc.turmasOf cfg k.1
      ∧ cfg.semestre_inicio ≤ k.2.1 ∧ k.2.1 ≤ cfg.num_semestres_total := by
  obtain ⟨d, s, t⟩ := k
  dsimp only
  constructor
  · intro h
    rw [Svc.alocKeys, List.mem_flatMap] at h
    obtain ⟨d', hd', h⟩ := h
    rw [List.mem_flatMap] at h
    obtain ⟨t', ht', h⟩ := h
    rw [List.mem_map] at h
    obtain ⟨s', hs', heq⟩ := h
    simp only [Prod.mk.injEq] at heq
    obtain ⟨rfl, rfl, rfl⟩ := heq
    rw [Svc.semestres, mem_range_sub] at hs'
    exact ⟨hd', ht', hs'.1, by omega⟩
  · rintro ⟨h1, h2, h3, h4⟩
    rw [Svc.alocKeys, List.mem_flatMap]
    refine ⟨d, h1, ?_⟩
    rw [List.mem_flatMap]
    refine ⟨t, h2, ?_⟩
    rw [List.mem_map]
    refine ⟨s, ?_, rfl⟩
    rw [Svc.semestres, mem_range_sub]
    omega

theorem scip_mem_alocKeys (cfg : Scip.Config) (k : String × Nat × String) :
    k ∈ Scip.alocKeys cfg ↔
      k.1 ∈ Scip.discIds cfg ∧ k.1 ∉ cfg.disciplinas_cursadas
      ∧ k.2.2 ∈ Scip.turmasOf cfg k.1 ∧ 1 ≤ k.2.1 ∧ k.2.1 ≤ cfg.numSemestres
      ∧ Scip.parityOk cfg k.1 k.2.1 = true := by
  obtain ⟨d, s, t⟩ := k
  dsimp only
  constructor
  · intro h
    rw [Scip.alocKeys, List.mem_flatMap] at h
    obtain ⟨d', hd', h⟩ := h
    by_cases hc : d' ∈ cfg.disciplinas_cursadas
    · rw [if_pos hc] at h
      exact absurd h (List.not_mem_nil _)
    · rw [if_neg hc, List.mem_flatMap] at h
      obtain ⟨t', ht', h⟩ := h
      rw [List.mem_filterMap] at h
      obtain ⟨s', hs', heq⟩ := h
      by_cases hp : Scip.parityOk cfg d' s' = true
      · rw [if_pos hp] at heq
        simp only [Option.some.injEq, Prod.mk.injEq] at heq
        obtain ⟨rfl, rfl, rfl⟩ := heq
        rw [List.mem_range'_1] at hs'
        exact ⟨hd', hc, ht', by omega, by omega, hp⟩
      · rw [if_neg hp] at heq
        cases heq
  · rintro ⟨h1, h2, h3, h4, h5, h6⟩
    rw [Scip.alocKeys, List.mem_flatMap]
    refine ⟨d, h1, ?_⟩
    rw [if_neg h2, List.mem_flatMap]
    refine ⟨t, h3, ?_⟩
    rw [List.mem_filterMap]
    refine ⟨s, ?_, ?_⟩
    · rw [List.mem_range'_1]; omega
    · rw [if_pos h6]

theorem svc_keysFor_spec (cfg : Svc.Config) (d : String) :
    ∀ k ∈ Svc.keysFor cfg d, k ∈ Svc.alocKeys cfg ∧ k.1 = d := by
  intro k hk
  rw [Svc.keysFor, List.mem_filter] at hk
  exact ⟨hk.1, by simpa using hk.2⟩

theorem scip_keysFor_spec (cfg : Scip.Config) (d : String) :
    ∀ k ∈ Scip.keysFor cfg d, k ∈ Scip.alocKeys cfg ∧ k.1 = d := by
  intro k hk
  rw [Scip.keysFor, List.mem_filter] at hk
  exact ⟨hk.1, by simpa using hk.2⟩

theorem svc_build_of_link (cfg : Svc.Config) {c : Constr}
    (h : c ∈ Svc.linkConstrs cfg) : c ∈ Svc.buildConstraints cfg := by
  simp only [Svc.buildConstraints, List.mem_append]; tauto

theorem svc_build_of_obrig (cfg : Svc.Config) {c : Constr}
    (h : c ∈ Svc.obrigConstrs cfg) : c ∈ Svc.buildConstraints cfg := by
  simp only [Svc.buildConstraints, List.mem_append]; tauto

theorem svc_build_of_prereq (cfg : Svc.Config) {c : Constr}
    (h : c ∈ Svc.prereqConstrs cfg) : c ∈ Svc.buildConstraints cfg := by
  simp only [Svc.buildConstraints, List.mem_append]; tauto

theorem svc_build_of_credCap (cfg : Svc.Config) {c : Constr}
    (h : c ∈ Svc.credCapConstrs cfg) : c ∈ Svc.buildConstraints cfg := by
  simp only [Svc.buildConstraints, List.mem_append]; tauto

theorem scip_build_of_gate (cfg : Scip.Config) {c : Constr}
    (h : c ∈ Scip.gateConstrs cfg) : c ∈ Scip.buildConstraints cfg := by
  simp only [Scip.buildConstraints, List.mem_append]; tauto

/-! ### The claims -/

/-- C1: for every not-completed course c with at least one assignment
variable, the service model contains the linking constraint
completionTerm(c) == Σ(t * assign(c,t,s)) + (1 - taken(c)) * dummyHorizon
with dummyHorizon = horizon + 2, where taken(c) is the sum of all of c's
assignment variables. -/
theorem claim_c1 (cfg : Svc.Config) (d : String)
    (hd : d ∈ Svc.todas cfg) (hne : Svc.keysFor cfg d ≠ []) :
    Svc.linkConstr cfg d ∈ Svc.buildConstraints cfg
    ∧ Svc.dummyValue cfg = (cfg.num_semestres_total : Int) + 2
    ∧ ∀ σ : Sol, (Svc.linkConstr cfg d).holds σ ↔
        σ.sem d =
          ((Svc.keysFor cfg d).map fun k => (k.2.1 : Int) * σ.aloc k.1 k.2.1 k.2.2).sum
          + (1 - alocSum σ (Svc.keysFor cfg d)) * Svc.dummyValue cfg := by
  have hni : ¬((Svc.keysFor cfg d).isEmpty = true) := by
    rw [List.isEmpty_iff]; exact hne
  refine ⟨?_, rfl, ?_⟩
  · apply svc_build_of_link
    rw [Svc.linkConstrs, List.mem_map]
    refine ⟨d, hd, ?_⟩
    dsimp only
    rw [if_neg hni]
  · intro σ
    have e1 : (sumE ((Svc.keysFor cfg d).map fun k =>
        LinExpr.mul (k.2.1 : Int) (varOf k))).eval σ =
        ((Svc.keysFor cfg d).map fun k => (k.2.1 : Int) * σ.aloc k.1 k.2.1 k.2.2).sum := by
      rw [eval_sumE, List.map_map]; rfl
    have e2 := svc_eval_cursada cfg σ d
    simp only [Svc.linkConstr, Constr.holds, LinExpr.eval, Atom.eval]
    rw [e1, e2, mul_comm (Svc.dummyValue cfg)]

/-- C1 witness: the linking constraint for course A is in the model built
from cfgW. -/
theorem claim_c1_witness :
    ("A" ∈ Svc.todas cfgW) ∧ Svc.keysFor cfgW "A" ≠ []
    ∧ Svc.linkConstr cfgW "A" ∈ Svc.buildConstraints cfgW :=
  ⟨by decide, by decide, (claim_c1 cfgW "A" (by decide) (by decide)).1⟩

/-- C2 counterexample: the service builder creates the assignment variable
for course A, turma T1 and semester 2 although A's recorded offering parity
is odd-only (periodos_validos of A is the singleton list holding 1) and
semester 2 is even, so variables are not instantiated only for
parity-matching terms. -/
theorem claim_c2_counterexample :
    ("A", 2, "T1") ∈ Svc.alocKeys cfgP
    ∧ (cfgP.dados.periodos_validos_por_disciplina.lookup "A").getD [1, 2] = [1]
    ∧ 2 % 2 = 0 := by decide

/-- C2 amended: in the service builder an assignment variable exists exactly
for every not-completed course of the scheduling scope, each of its turmas and
every term of the planning range, with no parity filtering (and completed
courses get none); the parity filter, over the course-level offering-parity
set and with the range starting at term 1, is applied only by the backend
builder. -/
theorem claim_c2_amended (svcCfg : Svc.Config) (scipCfg : Scip.Config)
    (k : String × Nat × String) :
    (k ∈ Svc.alocKeys svcCfg ↔
      k.1 ∈ Svc.todas svcCfg ∧ k.2.2 ∈ Svc.turmasOf svcCfg k.1
      ∧ svcCfg.semestre_inicio ≤ k.2.1 ∧ k.2.1 ≤ svcCfg.num_semestres_total)
    ∧ (k ∈ Svc.alocKeys svcCfg → k.1 ∉ svcCfg.disciplinas_concluidas_ids)
    ∧ (k ∈ Scip.alocKeys scipCfg ↔
      k.1 ∈ Scip.discIds scipCfg ∧ k.1 ∉ scipCfg.disciplinas_cursadas
      ∧ k.2.2 ∈ Scip.turmasOf scipCfg k.1 ∧ 1 ≤ k.2.1 ∧ k.2.1 ≤ scipCfg.numSemestres
      ∧ Scip.parityOk scipCfg k.1 k.2.1 = true) := by
  refine ⟨svc_mem_alocKeys svcCfg k, ?_, scip_mem_alocKeys scipCfg k⟩
  intro hk
  have h1 := ((svc_mem_alocKeys svcCfg k).mp hk).1
  rw [Svc.todas, List.mem_append] at h1
  rcases h1 with h2 | h2
  · rw [Svc.obrigatoriasACursar, List.mem_filter] at h2
    simpa using h2.2
  · rw [Svc.optativasACursar, List.mem_filter] at h2
    simpa using h2.2

/-- C2 witness: the characterization applied to cfgW at a concrete key. -/
theorem claim_c2_witness :
    ("A", 1, "TA") ∈ Svc.alocKeys cfgW ↔
      "A" ∈ Svc.todas cfgW ∧ "TA" ∈ Svc.turmasOf cfgW "A"
      ∧ cfgW.semestre_inicio ≤ 1 ∧ 1 ≤ cfgW.num_semestres_total :=
  (claim_c2_amended cfgW cfgG ("A", 1, "TA")).1

/-- C3: in every solver outcome of the service model, for every in-scope
prerequisite pair with the prerequisite not completed, if the course is taken
then the prerequisite is taken and its completion term is strictly smaller. -/
theorem claim_c3 (cfg : Svc.Config) (d pre : String) (info : DiscInfo)
    (hd : d ∈ Svc.todas cfg)
    (hlook : cfg.dados.disciplinas.lookup d = some info)
    (hp : pre ∈ info.prerequisitos)
    (hnc : pre ∉ cfg.disciplinas_concluidas_ids)
    (hpt : pre ∈ Svc.todas cfg)
    (σ : Sol) (hsat : Svc.Satisfies cfg σ)
    (htk : ∃ k ∈ Svc.keysFor cfg d, σ.aloc k.1 k.2.1 k.2.2 = 1) :
    (∃ k ∈ Svc.keysFor cfg pre, σ.aloc k.1 k.2.1 k.2.2 = 1)
    ∧ σ.sem pre < σ.sem d := by
  obtain ⟨hbounds, hcons⟩ := hsat
  have hbFor : ∀ dd : String, ∀ k ∈ Svc.keysFor cfg dd,
      0 ≤ σ.aloc k.1 k.2.1 k.2.2 ∧ σ.aloc k.1 k.2.1 k.2.2 ≤ 1 := by
    intro dd k hk
    exact hbounds.1 k (svc_keysFor_spec cfg dd k hk).1
  have hmem : (Constr.ge (Svc.cursadaExpr cfg pre) (Svc.cursadaExpr cfg d))
        ∈ Svc.prereqConstrs cfg
      ∧ (Constr.ge
          (LinExpr.sub (LinExpr.var (Atom.sem d)) (LinExpr.var (Atom.sem pre)))
          (LinExpr.sub (LinExpr.const 1)
            (LinExpr.mul (Svc.mPrereq cfg)
              (LinExpr.sub (LinExpr.const 1) (Svc.cursadaExpr cfg d)))))
        ∈ Svc.prereqConstrs cfg := by
    constructor <;>
    · rw [Svc.prereqConstrs, List.mem_flatMap]
      refine ⟨d, hd, ?_⟩
      rw [hlook]
      rw [List.mem_flatMap]
      refine ⟨pre, hp, ?_⟩
      rw [if_neg hnc, if_pos ⟨hpt, hpt, hd⟩]
      simp
  have h1 := hcons _ (svc_build_of_prereq cfg hmem.1)
  have h2 := hcons _ (svc_build_of_prereq cfg hmem.2)
  simp only [Constr.holds] at h1
  rw [svc_eval_cursada, svc_eval_cursada] at h1
  simp only [Constr.holds, LinExpr.eval, Atom.eval] at h2
  rw [svc_eval_cursada] at h2
  have hS : 1 ≤ alocSum σ (Svc.keysFor cfg d) :=
    alocSum_ge_one σ _ (fun k hk => (hbFor d k hk).1) htk
  have hSpre : 1 ≤ alocSum σ (Svc.keysFor cfg pre) := le_trans hS h1
  refine ⟨exists_one_of_alocSum σ _ (hbFor pre) hSpre, ?_⟩
  have hM : 0 ≤ Svc.mPrereq cfg := by unfold Svc.mPrereq; omega
  have h3 : (1 : Int) - alocSum σ (Svc.keysFor cfg d) ≤ 0 := by omega
  have h4 : Svc.mPrereq cfg * (1 - alocSum σ (Svc.keysFor cfg d)) ≤ 0 :=
    mul_nonpos_of_nonneg_of_nonpos hM h3
  linarith

/-- C3 witness: in the concrete outcome solW of cfgW, taking B forces A taken
and completed strictly earlier. -/
theorem claim_c3_witness :
    (∃ k ∈ Svc.keysFor cfgW "A", solW.aloc k.1 k.2.1 k.2.2 = 1)
    ∧ solW.sem "A" < solW.sem "B" :=
  claim_c3 cfgW "B" "A" infoB (by decide) (by decide) (by decide) (by decide)
    (by decide) solW (by decide) (by decide)

/-- C4: in every solver outcome of the backend model, the gating course is
assigned to a semester s only if the count of historically completed courses
plus other courses assigned strictly before s is at least half the catalog
size (stated multiplied by two over the integers). -/
theorem claim_c4 (cfg : Scip.Config)
    (hin : Scip.estagioId ∈ Scip.discIds cfg)
    (hnc : Scip.estagioId ∉ cfg.disciplinas_cursadas)
    (s : Nat) (hs1 : 1 ≤ s) (hs2 : s ≤ cfg.numSemestres)
    (σ : Sol) (hsat : Scip.Satisfies cfg σ)
    (ha : ∃ k ∈ Scip.alocKeys cfg,
      k.1 = Scip.estagioId ∧ k.2.1 = s ∧ σ.aloc k.1 k.2.1 k.2.2 = 1) :
    (cfg.dados.disciplinas.length : Int) ≤
      2 * (Scip.countCursadas cfg + alocSum σ (Scip.priorKeys cfg s)) := by
  obtain ⟨hbounds, hcons⟩ := hsat
  obtain ⟨k0, hk0, hk0e, hk0s, hk0v⟩ := ha
  have hk0' : k0 ∈ (Scip.alocKeys cfg).filter
      (fun k => k.1 = Scip.estagioId ∧ k.2.1 = s) :=
    List.mem_filter.mpr ⟨hk0, by simp [hk0e, hk0s]⟩
  have hne : ¬((((Scip.alocKeys cfg).filter
      (fun k => k.1 = Scip.estagioId ∧ k.2.1 = s)).isEmpty) = true) := by
    rw [List.isEmpty_iff]
    intro hcontra
    rw [hcontra] at hk0'
    cases hk0'
  have hmem : Constr.geHalf
      (LinExpr.add (LinExpr.const (Scip.countCursadas cfg))
        (sumE ((Scip.priorKeys cfg s).map varOf)))
      ((cfg.dados.disciplinas.length : Int))
      (LinExpr.mul ((cfg.dados.disciplinas.length : Int) + 1)
        (LinExpr.sub (LinExpr.const 1)
          (sumE (((Scip.alocKeys cfg).filter
            (fun k => k.1 = Scip.estagioId ∧ k.2.1 = s)).map varOf))))
      ∈ Scip.gateConstrs cfg := by
    rw [Scip.gateConstrs, if_pos ⟨hin, hnc⟩, List.mem_filterMap]
    refine ⟨s, ?_, ?_⟩
    · rw [List.mem_range'_1]; omega
    · dsimp only
      rw [if_neg hne]
  have h := hcons _ (scip_build_of_gate cfg hmem)
  simp only [Constr.holds, LinExpr.eval, Atom.eval] at h
  rw [eval_sumE_vars, eval_sumE_vars] at h
  have hb1 : ∀ k ∈ (Scip.alocKeys cfg).filter
      (fun k => k.1 = Scip.estagioId ∧ k.2.1 = s), 0 ≤ σ.aloc k.1 k.2.1 k.2.2 :=
    fun k hk => (hbounds.1 k (List.mem_filter.mp hk).1).1
  have hS : 1 ≤ alocSum σ ((Scip.alocKeys cfg).filter
      (fun k => k.1 = Scip.estagioId ∧ k.2.1 = s)) :=
    alocSum_ge_one σ _ hb1 ⟨k0, hk0', hk0v⟩
  have htot : (0 : Int) ≤ (cfg.dados.disciplinas.length : Int) + 1 := by omega
  have h3 : (1 : Int) - alocSum σ ((Scip.alocKeys cfg).filter
      (fun k => k.1 = Scip.estagioId ∧ k.2.1 = s)) ≤ 0 := by omega
  have h4 : ((cfg.dados.disciplinas.length : Int) + 1) *
      (1 - alocSum σ ((Scip.alocKeys cfg).filter
        (fun k => k.1 = Scip.estagioId ∧ k.2.1 = s))) ≤ 0 :=
    mul_nonpos_of_nonneg_of_nonpos htot h3
  linarith

/-- C4 witness: in the concrete backend outcome solG of cfgG, the gating
course sits in semester 1 and one of the two catalog courses is already
completed, meeting the half threshold. -/
theorem claim_c4_witness :
    (cfgG.dados.disciplinas.length : Int) ≤
      2 * (Scip.countCursadas cfgG + alocSum solG (Scip.priorKeys cfgG 1)) :=
  claim_c4 cfgG (by decide) (by decide) 1 (by decide) (by decide) solG
    (by decide) (by decide)

/-- C5 counterexample: for the required course A of cfgZ, which has no
assignment slot, the builder emits no coverage constraint at all (in
particular the empty-sum constraint Sum == 1 is absent from the model),
refuting the claim that the constraint is not omitted. -/
theorem claim_c5_counterexample :
    ("A" ∈ Svc.obrigatoriasACursar cfgZ) ∧ Svc.keysFor cfgZ "A" = []
    ∧ Svc.obrigConstr cfgZ "A" = none
    ∧ Constr.eqC (sumE []) (LinExpr.const 1) ∉ Svc.buildConstraints cfgZ := by
  decide

/-- C5 amended: a not-completed required course with at least one assignment
slot gets the coverage constraint Sum == 1; one with no slot is flagged with a
warning and its coverage constraint is omitted, yet the built instance is
still infeasible, because the course's completion-term constraint fixes
semestre_da_disciplina at horizon + 2, above the variable's upper bound
horizon + 1. -/
theorem claim_c5_amended (cfg : Svc.Config) (d : String)
    (hob : d ∈ Svc.obrigatoriasACursar cfg) :
    (Svc.keysFor cfg d ≠ [] →
      Constr.eqC (sumE ((Svc.keysFor cfg d).map varOf)) (LinExpr.const 1)
        ∈ Svc.buildConstraints cfg)
    ∧ (Svc.keysFor cfg d = [] →
      Svc.obrigConstr cfg d = none ∧ ∀ σ : Sol, ¬ Svc.Satisfies cfg σ) := by
  have hdt : d ∈ Svc.todas cfg := by
    rw [Svc.todas, List.mem_append]; exact Or.inl hob
  constructor
  · intro hne
    have hni : ¬((Svc.keysFor cfg d).isEmpty = true) := by
      rw [List.isEmpty_iff]; exact hne
    apply svc_build_of_obrig
    rw [Svc.obrigConstrs, List.mem_filterMap]
    refine ⟨d, hob, ?_⟩
    rw [Svc.obrigConstr, if_neg hni]
  · intro hemp
    have hie : (Svc.keysFor cfg d).isEmpty = true := by
      rw [List.isEmpty_iff]; exact hemp
    refine ⟨by rw [Svc.obrigConstr, if_pos hie], ?_⟩
    intro σ hsat
    obtain ⟨hbounds, hcons⟩ := hsat
    have hmem : Constr.eqC (LinExpr.var (Atom.sem d))
        (LinExpr.const (Svc.dummyValue cfg)) ∈ Svc.linkConstrs cfg := by
      rw [Svc.linkConstrs, List.mem_map]
      refine ⟨d, hdt, ?_⟩
      dsimp only
      rw [if_pos hie]
    have h := hcons _ (svc_build_of_link cfg hmem)
    simp only [Constr.holds, LinExpr.eval, Atom.eval] at h
    have hb := (hbounds.2.1 d hdt).2
    rw [h] at hb
    unfold Svc.dummyValue at hb
    omega

/-- C5 witness: the amended claim applied to cfgZ and its slotless required
course A. -/
theorem claim_c5_witness :
    Svc.obrigConstr cfgZ "A" = none ∧ ∀ σ : Sol, ¬ Svc.Satisfies cfgZ σ :=
  (claim_c5_amended cfgZ "A" (by decide)).2 (by decide)

/-- C6: in every solver outcome of the service model, for every term of the
planning range the credits of the courses assigned to it stay within the
per-term cap. -/
theorem claim_c6 (cfg : Svc.Config) (s : Nat)
    (h1 : cfg.semestre_inicio ≤ s) (h2 : s ≤ cfg.num_semestres_total)
    (σ : Sol) (hsat : Svc.Satisfies cfg σ) :
    (cfg.dados.disciplinas.map fun p =>
      p.2.creditos * alocSum σ (Svc.keysAt cfg p.1 s)).sum
      ≤ cfg.creditos_maximos_por_semestre := by
  obtain ⟨hbounds, hcons⟩ := hsat
  have hsmem : s ∈ Svc.semestres cfg := by
    rw [Svc.semestres, mem_range_sub]; omega
  have hmem : Constr.le
      (if (Svc.credCapTerms cfg s).isEmpty then LinExpr.const 0
       else sumE (Svc.credCapTerms cfg s))
      (LinExpr.const cfg.creditos_maximos_por_semestre) ∈ Svc.credCapConstrs cfg := by
    rw [Svc.credCapConstrs, List.mem_map]
    exact ⟨s, hsmem, rfl⟩
  have h := hcons _ (svc_build_of_credCap cfg hmem)
  simp only [Constr.holds] at h
  have hsum : ((Svc.credCapTerms cfg s).map (LinExpr.eval σ)).sum =
      (cfg.dados.disciplinas.map fun p =>
        p.2.creditos * alocSum σ (Svc.keysAt cfg p.1 s)).sum := by
    apply sum_filterMap_eval
    · intro p hp e hfe
      by_cases hv : (Svc.keysAt cfg p.1 s).isEmpty = true
      · rw [if_pos hv] at hfe; cases hfe
      · rw [if_neg hv] at hfe
        obtain rfl := Option.some.inj hfe
        simp only [LinExpr.eval]
        rw [eval_sumE_vars]
    · intro p hp hfe
      by_cases hv : (Svc.keysAt cfg p.1 s).isEmpty = true
      · rw [List.isEmpty_iff] at hv
        rw [hv]
        simp [alocSum]
      · rw [if_neg hv] at hfe; cases hfe
  by_cases hie : (Svc.credCapTerms cfg s).isEmpty = true
  · rw [if_pos hie] at h
    simp only [LinExpr.eval] at h
    rw [List.isEmpty_iff] at hie
    rw [hie] at hsum
    simp only [List.map_nil, List.sum_nil] at hsum
    rw [← hsum]
    exact h
  · rw [if_neg hie] at h
    simp only [LinExpr.eval] at h
    rw [eval_sumE, hsum] at h
    exact h

/-- C6 witness: the credit cap of cfgW in semester 1 under solW. -/
theorem claim_c6_witness :
    (cfgW.dados.disciplinas.map fun p =>
      p.2.creditos * alocSum solW (Svc.keysAt cfgW p.1 1)).sum
      ≤ cfgW.creditos_maximos_por_semestre :=
  claim_c6 cfgW 1 (by decide) (by decide) solW (by decide)

/-- C7: for a solver status that is neither OPTIMAL nor FEASIBLE, the service
decoder returns the empty result (no term entries) carrying that status and no
objective value, and the backend resolver likewise returns no schedule, the
status, and no objective value. -/
theorem claim_c7 (cfg : Svc.Config) (scipCfg : Scip.Config) (status : Int)
    (σ : Sol) (objVal tempo : Int)
    (h1 : status ≠ OPTIMAL) (h2 : status ≠ FEASIBLE) :
    Svc.processarResultados cfg status σ objVal tempo =
      { grade := [], creditos_por_semestre := [], status := status,
        objetivo_value := none, tempo_execucao := tempo }
    ∧ Scip.resolverGrade true scipCfg status σ =
      [Scip.PyVal.vnone, Scip.PyVal.vnone, Scip.PyVal.vint status,
       Scip.PyVal.vnone, Scip.PyVal.vnone] := by
  constructor
  · rw [Svc.processarResultados, if_neg (not_or.mpr ⟨h1, h2⟩)]
  · rw [Scip.resolverGrade, if_neg (by decide), if_neg (not_or.mpr ⟨h1, h2⟩)]

/-- C7 witness: the service decoder at status INFEASIBLE. -/
theorem claim_c7_witness :
    Svc.processarResultados cfgW INFEASIBLE solW 0 0 =
      { grade := [], creditos_por_semestre := [], status := INFEASIBLE,
        objetivo_value := none, tempo_execucao := 0 } :=
  (claim_c7 cfgW cfgG INFEASIBLE solW 0 0 (by decide) (by decide)).1

/-- C9 counterexample: the backend decoder of cfgG under solG, with status
OPTIMAL, returns a grade containing semester 2 with an empty course list. -/
theorem claim_c9_counterexample :
    (2, ([] : List Scip.ScipEntry)) ∈ Scip.decodeGrade cfgG solG
    ∧ (Scip.resolverGrade true cfgG OPTIMAL solG).head? =
        some (Scip.PyVal.vgrade (Scip.decodeGrade cfgG solG)) := by
  decide

/-- C9 amended: the service decoder omits semesters with no assignments
(every semester of its returned grade has a non-empty list), while the
backend decoder returns every semester of the range 1 to the horizon,
empty ones included. -/
theorem claim_c9_amended :
    (∀ (cfg : Svc.Config) (status : Int) (σ : Sol) (objVal tempo : Int)
      (s : Nat) (l : List Svc.AlocEntry),
      (s, l) ∈ (Svc.processarResultados cfg status σ objVal tempo).grade →
      l ≠ [])
    ∧ ∀ (cfg : Scip.Config) (σ : Sol),
      (Scip.decodeGrade cfg σ).map Prod.fst = List.range' 1 cfg.numSemestres := by
  constructor
  · intro cfg status σ objVal tempo s l hmem
    rw [Svc.processarResultados] at hmem
    split_ifs at hmem with h
    · dsimp only at hmem
      rw [List.mem_filter] at hmem
      have h2 := hmem.2
      simp only [Bool.not_eq_true'] at h2
      intro hcontra
      rw [hcontra] at h2
      cases h2
    · dsimp only at hmem
      cases hmem
  · intro cfg σ
    rw [Scip.decodeGrade, List.map_map]
    exact List.map_id _

/-- C9 witness: the non-emptiness statement applied to cfgW with solW at
semester 1, whose decoded list holds course A. -/
theorem claim_c9_witness :
    ([⟨"Calculo 1", "TA", ["SEG-08-10"], 4⟩] : List Svc.AlocEntry) ≠ [] :=
  claim_c9_amended.1 cfgW 0 solW 2 0 1
    [⟨"Calculo 1", "TA", ["SEG-08-10"], 4⟩] (by decide)

/-- C10: on solver-initialization failure resolver_grade returns the
four-element tuple of None, None, -1, None, while every path on which the
solver ran returns five elements; the handler's five-way unpacking therefore
fails exactly on the failure tuple. -/
theorem claim_c10 (cfg : Scip.Config) (status : Int) (σ : Sol) :
    Scip.resolverGrade false cfg status σ =
      [Scip.PyVal.vnone, Scip.PyVal.vnone, Scip.PyVal.vint (-1), Scip.PyVal.vnone]
    ∧ (Scip.resolverGrade false cfg status σ).length = 4
    ∧ (Scip.resolverGrade true cfg status σ).length = 5
    ∧ MainApi.unpack5 (Scip.resolverGrade false cfg status σ) = none
    ∧ (MainApi.unpack5 (Scip.resolverGrade true cfg status σ)).isSome = true := by
  refine ⟨rfl, rfl, ?_, rfl, ?_⟩
  · rw [Scip.resolverGrade]
    by_cases h : status = OPTIMAL ∨ status = FEASIBLE
    · rw [if_neg (by decide), if_pos h]; rfl
    · rw [if_neg (by decide), if_neg h]; rfl
  · rw [Scip.resolverGrade]
    by_cases h : status = OPTIMAL ∨ status = FEASIBLE
    · rw [if_neg (by decide), if_pos h]; rfl
    · rw [if_neg (by decide), if_neg h]; rfl

theorem categorizarStep_obrig (cat : Categorias) (rec : String × String) :
    (categorizarStep cat rec).obrigatorias =
      cat.obrigatorias ++
        (if claimCategoria rec = CategoriaCanonica.required then [rec.1] else []) := by
  simp only [categorizarStep, claimCategoria]
  split_ifs <;> simp_all

theorem categorizarStep_restr (cat : Categorias) (rec : String × String) :
    (categorizarStep cat rec).restritas =
      cat.restritas ++
        (if claimCategoria rec = CategoriaCanonica.restrictedElective then [rec.1]
         else []) := by
  simp only [categorizarStep, claimCategoria]
  split_ifs <;> simp_all

theorem categorizarStep_cond (cat : Categorias) (rec : String × String) :
    (categorizarStep cat rec).condicionadas =
      cat.condicionadas ++
        (if claimCategoria rec = CategoriaCanonica.conditionedElective then [rec.1]
         else []) := by
  simp only [categorizarStep, claimCategoria]
  split_ifs <;> simp_all

theorem categorizarStep_livre (cat : Categorias) (rec : String × String) :
    (categorizarStep cat rec).livres =
      cat.livres ++
        (if claimCategoria rec = CategoriaCanonica.freeElective then [rec.1]
         else []) := by
  simp only [categorizarStep, claimCategoria]
  split_ifs <;> simp_all

theorem categorizar_foldl_obrig (ds : List (String × String)) (cat : Categorias) :
    (ds.foldl categorizarStep cat).obrigatorias =
      cat.obrigatorias ++ ds.filterMap (fun r =>
        if claimCategoria r = CategoriaCanonica.required then some r.1 else none) := by
  induction ds generalizing cat with
  | nil => simp
  | cons r ds ih =>
    rw [List.foldl_cons, ih, categorizarStep_obrig]
    by_cases h : claimCategoria r = CategoriaCanonica.required
    · rw [if_pos h, List.filterMap_cons_some (show _ = some r.1 by rw [if_pos h])]
      simp
    · rw [if_neg h, List.filterMap_cons_none (show _ = none by rw [if_neg h])]
      simp

theorem categorizar_foldl_restr (ds : List (String × String)) (cat : Categorias) :
    (ds.foldl categorizarStep cat).restritas =
      cat.restritas ++ ds.filterMap (fun r =>
        if claimCategoria r = CategoriaCanonica.restrictedElective then some r.1
        else none) := by
  induction ds generalizing cat with
  | nil => simp
  | cons r ds ih =>
    rw [List.foldl_cons, ih, categorizarStep_restr]
    by_cases h : claimCategoria r = CategoriaCanonica.restrictedElective
    · rw [if_pos h, List.filterMap_cons_some (show _ = some r.1 by rw [if_pos h])]
      simp
    · rw [if_neg h, List.filterMap_cons_none (show _ = none by rw [if_neg h])]
      simp

theorem categorizar_foldl_cond (ds : List (String × String)) (cat : Categorias) :
    (ds.foldl categorizarStep cat).condicionadas =
      cat.condicionadas ++ ds.filterMap (fun r =>
        if claimCategoria r = CategoriaCanonica.conditionedElective then some r.1
        else none) := by
  induction ds generalizing cat with
  | nil => simp
  | cons r ds ih =>
    rw [List.foldl_cons, ih, categorizarStep_cond]
    by_cases h : claimCategoria r = CategoriaCanonica.conditionedElective
    · rw [if_pos h, List.filterMap_cons_some (show _ = some r.1 by rw [if_pos h])]
      simp
    · rw [if_neg h, List.filterMap_cons_none (show _ = none by rw [if_neg h])]
      simp

theorem categorizar_foldl_livre (ds : List (String × String)) (cat : Categorias) :
    (ds.foldl categorizarStep cat).livres =
      cat.livres ++ ds.filterMap (fun r =>
        if claimCategoria r = CategoriaCanonica.freeElective then some r.1
        else none) := by
  induction ds generalizing cat with
  | nil => simp
  | cons r ds ih =>
    rw [List.foldl_cons, ih, categorizarStep_livre]
    by_cases h : claimCategoria r = CategoriaCanonica.freeElective
    · rw [if_pos h, List.filterMap_cons_some (show _ = some r.1 by rw [if_pos h])]
      simp
    · rw [if_neg h, List.filterMap_cons_none (show _ = none by rw [if_neg h])]
      simp

theorem categorizar_mem (ds : List (String × String)) (x : String)
    (cat : CategoriaCanonica)
    (l : List String)
    (hl : l = ds.filterMap (fun r => if claimCategoria r = cat then some r.1 else none)) :
    x ∈ l ↔ ∃ r ∈ ds, r.1 = x ∧ claimCategoria r = cat := by
  subst hl
  constructor
  · intro h1
    obtain ⟨r, hr, hfx⟩ := List.mem_filterMap.mp h1
    by_cases hc : claimCategoria r = cat
    · rw [if_pos hc] at hfx
      exact ⟨r, hr, Option.some.inj hfx, hc⟩
    · rw [if_neg hc] at hfx
      cases hfx
  · rintro ⟨r, hr, rfl, hc⟩
    exact List.mem_filterMap.mpr ⟨r, hr, by rw [if_pos hc]⟩

theorem nodup_key_eq {α β : Type} (ds : List (α × β))
    (hnd : (ds.map Prod.fst).Nodup) {r1 r2 : α × β}
    (h1 : r1 ∈ ds) (h2 : r2 ∈ ds) (he : r1.1 = r2.1) : r1 = r2 := by
  induction ds with
  | nil => cases h1
  | cons a l ih =>
    rw [List.map_cons, List.nodup_cons] at hnd
    rcases List.mem_cons.mp h1 with rfl | h1'
    · rcases List.mem_cons.mp h2 with rfl | h2'
      · rfl
      · exact absurd (by rw [he]; exact List.mem_map_of_mem Prod.fst h2') hnd.1
    · rcases List.mem_cons.mp h2 with rfl | h2'
      · exact absurd (by rw [← he]; exact List.mem_map_of_mem Prod.fst h1') hnd.1
      · exact ih hnd.2 h1' h2'

/-- C8: over any record list with distinct ids, ingestion places a record's id
in the obrigatorias, restritas, condicionadas or livres list exactly when the
priority substring rules of the claim map it to Required, RestrictedElective,
ConditionedElective or FreeElective respectively, and the rules map it to
Other exactly when the id lands in none of the four lists. -/
theorem claim_c8 (ds : List (String × String))
    (hnd : (ds.map Prod.fst).Nodup)
    (rec : String × String) (hrec : rec ∈ ds) :
    (rec.1 ∈ (categorizarDisciplinas ds).obrigatorias ↔
      claimCategoria rec = CategoriaCanonica.required)
    ∧ (rec.1 ∈ (categorizarDisciplinas ds).restritas ↔
      claimCategoria rec = CategoriaCanonica.restrictedElective)
    ∧ (rec.1 ∈ (categorizarDisciplinas ds).condicionadas ↔
      claimCategoria rec = CategoriaCanonica.conditionedElective)
    ∧ (rec.1 ∈ (categorizarDisciplinas ds).livres ↔
      claimCategoria rec = CategoriaCanonica.freeElective)
    ∧ (claimCategoria rec = CategoriaCanonica.other ↔
      rec.1 ∉ (categorizarDisciplinas ds).obrigatorias
      ∧ rec.1 ∉ (categorizarDisciplinas ds).restritas
      ∧ rec.1 ∉ (categorizarDisciplinas ds).condicionadas
      ∧ rec.1 ∉ (categorizarDisciplinas ds).livres) := by
  have key : ∀ (cat : CategoriaCanonica) (r : String × String), r ∈ ds →
      r.1 = rec.1 → claimCategoria r = cat → claimCategoria rec = cat := by
    intro cat r hr he hc
    exact nodup_key_eq ds hnd hr hrec he ▸ hc
  have hme : ∀ cat : CategoriaCanonica,
      ∀ l : List String,
      (l = ds.filterMap (fun r => if claimCategoria r = cat then some r.1 else none)) →
      (rec.1 ∈ l ↔ claimCategoria rec = cat) := by
    intro cat l hl
    rw [categorizar_mem ds rec.1 cat l hl]
    constructor
    · rintro ⟨r, hr, he, hc⟩
      exact key cat r hr he hc
    · intro hc
      exact ⟨rec, hrec, rfl, hc⟩
  have h1 := hme CategoriaCanonica.required
    ((categorizarDisciplinas ds).obrigatorias)
    (by rw [categorizarDisciplinas, categorizar_foldl_obrig]; rfl)
  have h2 := hme CategoriaCanonica.restrictedElective
    ((categorizarDisciplinas ds).restritas)
    (by rw [categorizarDisciplinas, categorizar_foldl_restr]; rfl)
  have h3 := hme CategoriaCanonica.conditionedElective
    ((categorizarDisciplinas ds).condicionadas)
    (by rw [categorizarDisciplinas, categorizar_foldl_cond]; rfl)
  have h4 := hme CategoriaCanonica.freeElective
    ((categorizarDisciplinas ds).livres)
    (by rw [categorizarDisciplinas, categorizar_foldl_livre]; rfl)
  refine ⟨h1, h2, h3, h4, ?_⟩
  constructor
  · intro ho
    refine ⟨?_, ?_, ?_, ?_⟩ <;> intro hmem
    · rw [h1] at hmem; rw [ho] at hmem; cases hmem
    · rw [h2] at hmem; rw [ho] at hmem; cases hmem
    · rw [h3] at hmem; rw [ho] at hmem; cases hmem
    · rw [h4] at hmem; rw [ho] at hmem; cases hmem
  · rintro ⟨ha, hb, hc, hd⟩
    cases hcat : claimCategoria rec with
    | required => exact absurd (h1.mpr hcat) ha
    | restrictedElective => exact absurd (h2.mpr hcat) hb
    | conditionedElective => exact absurd (h3.mpr hcat) hc
    | freeElective => exact absurd (h4.mpr hcat) hd
    | other => rfl

/-- C8 witness: the mapping applied to the concrete record list dsC8 at the
artificially-identified record. -/
theorem claim_c8_witness :
    "ARTIFICIAL9" ∈ (categorizarDisciplinas dsC8).livres ↔
      claimCategoria ("ARTIFICIAL9", "Desconhecida") = CategoriaCanonica.freeElective :=
  (claim_c8 dsC8 (by decide) ("ARTIFICIAL9", "Desconhecida") (by decide)).2.2.2.1
